import Mathlib

/-!
Verification development for the cross-origin iframe redirect handler
(redirect-handler.js).  The JavaScript source is shallowly embedded:
pure classifier functions become Lean functions on an explicit model of
JavaScript values, and the stateful dispatcher (triggerRedirect plus the
scheduled navigation timers) becomes an explicit state-transition system.
Console logging is pure diagnostics and is not modelled as an observable
effect; every other side effect (analytics tracking, overlay activation,
scheduling a navigation timer, performing a navigation) is recorded
explicitly.
-/

/-- Success vocabulary, verbatim from SUCCESS_INDICATORS in
redirect-handler.js lines 20 to 28. -/
def SUCCESS_INDICATORS : List String :=
  ["thank", "success", "confirm", "complete", "booked", "scheduled",
   "appointment-confirmed"]

/-- Lowercasing of a character list; models String.prototype.toLowerCase
applied to the ASCII texts the handler works with. -/
def lowerL (l : List Char) : List Char := l.map Char.toLower

/-- Boolean prefix test on character lists, an executable model of the
prefix comparison underlying the JavaScript String.prototype.includes
builtin. -/
def jsStartsWith : List Char → List Char → Bool
  | _, [] => true
  | [], _ :: _ => false
  | c :: cs, p :: ps => (c == p) && jsStartsWith cs ps

/-- Boolean substring test: jsIncludes pat l models l.includes(pat) from
JavaScript (true when pat occurs contiguously inside l). -/
def jsIncludes (pat : List Char) : List Char → Bool
  | [] => pat.isEmpty
  | c :: cs => jsStartsWith (c :: cs) pat || jsIncludes pat cs

/-- A vocabulary scan: true when some success indicator occurs inside the
given character list.  This is the shared body of the
SUCCESS_INDICATORS.some(... includes ...) expressions in the source. -/
def anyIndicator (l : List Char) : Bool :=
  SUCCESS_INDICATORS.any (fun tok => jsIncludes tok.toList l)

/-- Embedding of containsSuccessIndicator (redirect-handler.js lines 228
to 233).  The input is an Option String: none models an undefined or null
argument, and the falsy guard also rejects the empty string. -/
def containsSuccessIndicator : Option String → Bool
  | none => false
  | some text => if text = "" then false else anyIndicator (lowerL text.toList)

/-- Embedding of isSuccessUrl (redirect-handler.js lines 218 to 223);
its body is the same falsy guard followed by the vocabulary scan. -/
def isSuccessUrl : Option String → Bool
  | none => false
  | some url => if url = "" then false else anyIndicator (lowerL url.toList)

-- Model of the JavaScript values a message payload can hold: null (also
-- standing for undefined), booleans, integer numbers, strings, objects and
-- arrays.  JSFields and JSItems are the spines of object field lists and
-- array element lists.
mutual

inductive JSValue : Type where
  | null : JSValue
  | bool (b : Bool) : JSValue
  | num (n : Int) : JSValue
  | str (s : String) : JSValue
  | obj (fields : JSFields) : JSValue
  | arr (items : JSItems) : JSValue

inductive JSFields : Type where
  | nil : JSFields
  | cons (key : String) (val : JSValue) (rest : JSFields) : JSFields

inductive JSItems : Type where
  | nil : JSItems
  | cons (head : JSValue) (rest : JSItems) : JSItems

end

/-- JavaScript truthiness for the modelled values: null, false, 0 and the
empty string are falsy, everything else is truthy. -/
def truthy : JSValue → Bool
  | .null => false
  | .bool b => b
  | .num n => n != 0
  | .str s => s != ""
  | .obj _ => true
  | .arr _ => true

/-- The typeof test used by isSuccessMessage: typeof data === "object"
holds for objects, arrays and null in JavaScript. -/
def typeofObject : JSValue → Bool
  | .null => true
  | .obj _ => true
  | .arr _ => true
  | _ => false

/-- Lookup of a named property on the field spine (first occurrence). -/
def getFieldF : JSFields → String → Option JSValue
  | .nil, _ => none
  | .cons k v rest, name => if k = name then some v else getFieldF rest name

/-- Property access data.name: defined for objects, undefined (none)
for every other value in this model. -/
def getField : JSValue → String → Option JSValue
  | .obj fields, name => getFieldF fields name
  | _, _ => none

/-- Strict comparison of a property read against the boolean true,
modelling data.success === true. -/
def isTrueVal : Option JSValue → Bool
  | some (.bool true) => true
  | _ => false

/-- Strict comparison of a property read against a string literal,
modelling data.status === "success" and data.type === "bookingComplete". -/
def isStrVal (s : String) : Option JSValue → Bool
  | some (.str t) => t == s
  | _ => false

/-- JSON string escaping for one character, as JSON.stringify performs it
on the quote and backslash characters. -/
def escChar (c : Char) : List Char :=
  if c = '"' then ['\\', '"'] else if c = '\\' then ['\\', '\\'] else [c]

/-- JSON string escaping over a character list. -/
def escList (l : List Char) : List Char := l.flatMap escChar

/-- A JSON string literal: escaped content between double quotes. -/
def quoteStr (s : String) : List Char := '"' :: escList s.toList ++ ['"']

-- Model of JSON.stringify restricted to the modelled values, producing
-- the serialized text as a character list.
mutual

def stringify : JSValue → List Char
  | .null => "null".toList
  | .bool true => "true".toList
  | .bool false => "false".toList
  | .num n => (toString n).toList
  | .str s => quoteStr s
  | .obj fields => '\x7b' :: stringifyFields fields ++ ['\x7d']
  | .arr items => '[' :: stringifyItems items ++ [']']

def stringifyFields : JSFields → List Char
  | .nil => []
  | .cons k v .nil => quoteStr k ++ ':' :: stringify v
  | .cons k v (.cons k2 v2 rest) =>
      (quoteStr k ++ ':' :: stringify v) ++
        ',' :: stringifyFields (.cons k2 v2 rest)

def stringifyItems : JSItems → List Char
  | .nil => []
  | .cons v .nil => stringify v
  | .cons v (.cons v2 rest) => stringify v ++ ',' :: stringifyItems (.cons v2 rest)

end

/-- Embedding of isSuccessMessage (redirect-handler.js lines 194 to 213):
falsy guard, three structured shortcut checks, then the serialization
fallback JSON.stringify(data).toLowerCase() scanned for the vocabulary. -/
def isSuccessMessage (data : JSValue) : Bool :=
  if truthy data = false then false
  else if typeofObject data && isTrueVal (getField data "success") then true
  else if typeofObject data && isStrVal "success" (getField data "status") then true
  else if typeofObject data && isStrVal "bookingComplete" (getField data "type") then true
  else anyIndicator (lowerL (stringify data))

/-- Membership of a key-value pair somewhere in a field spine. -/
inductive HasPair : JSFields → String → JSValue → Prop where
  | head (k : String) (v : JSValue) (rest : JSFields) : HasPair (.cons k v rest) k v
  | tail (k2 : String) (v2 : JSValue) {rest : JSFields} {k : String} {v : JSValue} :
      HasPair rest k v → HasPair (.cons k2 v2 rest) k v

/-- Static configuration, from the CONFIG object of redirect-handler.js
(lines 9 to 17).  The mutable redirectAttempts counter that the source
stores inside CONFIG lives in DState below; overlayPresent records
whether the optional loading overlay element was found at init time. -/
structure Config where
  redirectUrl : String
  redirectDelay : Nat
  checkInterval : Nat
  maxRedirectAttempts : Nat
  overlayPresent : Bool
deriving DecidableEq

/-- The concrete configuration values of the source. -/
def CONFIG : Config :=
  { redirectUrl := "https://studentmarketing.agency/thanks-appointment/"
    redirectDelay := 1500
    checkInterval := 500
    maxRedirectAttempts := 3
    overlayPresent := true }

/-- Observable side effects of the dispatcher.  detection marks a call
into triggerRedirect by a detector (a DetectionEvent with its method
tag); the others are the effects triggerRedirect and the scheduled
navigation timers produce. -/
inductive Effect : Type where
  | detection (tag : String) : Effect
  | overlayShown : Effect
  | analyticsTracked (tag : String) : Effect
  | navScheduled : Effect
  | navigate (url : String) : Effect
deriving DecidableEq

/-- Mutable dispatcher state: the attempt counter, whether the overlay
was switched to its active state, how many scheduled navigation timers
have not fired yet, and the navigations performed so far (in order). -/
structure DState where
  redirectAttempts : Nat
  overlayActive : Bool
  pendingNavs : Nat
  navigations : List String
deriving DecidableEq

/-- Dispatcher state at page load. -/
def initState : DState :=
  { redirectAttempts := 0, overlayActive := false, pendingNavs := 0,
    navigations := [] }

/-- Embedding of triggerRedirect (redirect-handler.js lines 238 to 261):
reject when the attempt ceiling is reached, otherwise increment the
counter, activate the overlay when present, track analytics and schedule
one navigation timer.  The scheduled timer itself is modelled by fireNav
below. -/
def triggerRedirect (cfg : Config) (method : String) (s : DState) :
    DState × List Effect :=
  if s.redirectAttempts ≥ cfg.maxRedirectAttempts then
    (s, [])
  else
    let s1 : DState := { s with redirectAttempts := s.redirectAttempts + 1 }
    let s2 : DState := if cfg.overlayPresent then { s1 with overlayActive := true } else s1
    ({ s2 with pendingNavs := s2.pendingNavs + 1 },
     (if cfg.overlayPresent then [Effect.overlayShown] else []) ++
       [Effect.analyticsTracked method, Effect.navScheduled])

/-- Firing of one scheduled navigation timer.  The callback in the
source (line 258 to 260) assigns window.location.href unconditionally:
there is no guard flag, so every fired timer performs the navigation. -/
def fireNav (cfg : Config) (s : DState) : DState × List Effect :=
  if s.pendingNavs = 0 then (s, [])
  else
    ({ s with pendingNavs := s.pendingNavs - 1,
              navigations := s.navigations ++ [cfg.redirectUrl] },
     [Effect.navigate cfg.redirectUrl])

/-- One scheduler step: either a detector calls triggerRedirect with its
method tag, or a pending navigation timer fires. -/
inductive Op : Type where
  | detect (method : String) : Op
  | fire : Op

/-- Execution of one operation. -/
def stepOp (cfg : Config) : Op → DState → DState × List Effect
  | Op.detect m, s => triggerRedirect cfg m s
  | Op.fire, s => fireNav cfg s

/-- Execution of a whole operation sequence, collecting all effects. -/
def run (cfg : Config) : List Op → DState → DState × List Effect
  | [], s => (s, [])
  | op :: rest, s =>
    let r1 := stepOp cfg op s
    let r2 := run cfg rest r1.1
    (r2.1, r1.2 ++ r2.2)

/-- Number of dispatcher calls in the sequence that pass the attempt
guard (the accepted DetectionEvents). -/
def acceptedFrom (cfg : Config) : List Op → DState → Nat
  | [], _ => 0
  | Op.detect m :: rest, s =>
    (if s.redirectAttempts < cfg.maxRedirectAttempts then 1 else 0) +
      acceptedFrom cfg rest (triggerRedirect cfg m s).1
  | Op.fire :: rest, s => acceptedFrom cfg rest (fireNav cfg s).1

/-- DOM circumstances at initialization time. -/
structure Dom where
  iframePresent : Bool
  overlayPresent : Bool

/-- Result of running init: which setup functions were executed and
whether the missing-iframe error was logged. -/
structure InitResult where
  started : List String
  errorLogged : Bool
deriving DecidableEq

/-- Embedding of init (redirect-handler.js lines 33 to 58): the iframe
and overlay elements are looked up; when the iframe is missing an error
is logged and init returns early, running no setup function; otherwise
all five setup functions run.  The function is total: no execution path
throws. -/
def init (dom : Dom) : InitResult :=
  if dom.iframePresent = false then
    { started := [], errorLogged := true }
  else
    { started := ["setupPostMessageListener", "setupUrlMonitoring",
                  "setupMutationObserver", "setupNavigationWatcher",
                  "setupCustomEventListener"],
      errorLogged := false }

/-- The trusted-origin substring checked by the message listener
(redirect-handler.js line 67). -/
def trustedOriginSubstring : String := "appointmentcore.com"

/-- Embedding of the message-event callback installed by
setupPostMessageListener (redirect-handler.js lines 64 to 81): messages
whose origin does not contain the trusted substring are ignored before
any processing; accepted messages are classified and, on a positive
classification, a DetectionEvent tagged postMessage enters the
dispatcher. -/
def onMessage (cfg : Config) (origin : String) (data : JSValue) (s : DState) :
    DState × List Effect :=
  if !(jsIncludes trustedOriginSubstring.toList origin.toList) then (s, [])
  else if isSuccessMessage data then
    ((triggerRedirect cfg "postMessage" s).1,
     Effect.detection "postMessage" :: (triggerRedirect cfg "postMessage" s).2)
  else (s, [])

/-- State of the URL-monitoring interval set up by setupUrlMonitoring:
the last seen address (initially the empty string) and whether the
interval is still active (clearInterval sets it inactive). -/
structure PollState where
  lastUrl : String
  active : Bool
deriving DecidableEq

/-- Poller state right after setup. -/
def pollInit : PollState := { lastUrl := "", active := true }

/-- Embedding of one tick of the interval callback in setupUrlMonitoring
(redirect-handler.js lines 87 to 112).  The read of the embedded
location is modelled as an Option: none stands for the cross-origin read
that throws, and the surrounding try/catch swallows it, so the tick has
no effect at all.  On a successful read the address is compared with the
last seen one; when it changed and classifies as a success URL the
interval is cleared and a DetectionEvent tagged urlMonitoring enters the
dispatcher. -/
def pollTick (cfg : Config) (readResult : Option String) (p : PollState)
    (s : DState) : PollState × DState × List Effect :=
  if p.active = false then (p, s, [])
  else
    match readResult with
    | none => (p, s, [])
    | some currentUrl =>
      if currentUrl ≠ p.lastUrl then
        if isSuccessUrl (some currentUrl) then
          ({ lastUrl := currentUrl, active := false },
           (triggerRedirect cfg "urlMonitoring" s).1,
           Effect.detection "urlMonitoring" ::
             (triggerRedirect cfg "urlMonitoring" s).2)
        else ({ p with lastUrl := currentUrl }, s, [])
      else (p, s, [])

/-- Execution of a sequence of poller ticks. -/
def runPoll (cfg : Config) : List (Option String) → PollState → DState →
    PollState × DState × List Effect
  | [], p, s => (p, s, [])
  | r :: rest, p, s =>
    let t1 := pollTick cfg r p s
    let t2 := runPoll cfg rest t1.1 t1.2.1
    (t2.1, t2.2.1, t1.2.2 ++ t2.2.2)

/-- A DOM node as the mutation callback sees it: its nodeType and the
two text properties the source coalesces. -/
structure MNode where
  nodeType : Nat
  textContent : Option String
  innerText : Option String
deriving DecidableEq

/-- The JavaScript expression a || b for string-valued a with string
default b: a when it is a nonempty string, b otherwise. -/
def jsOrStr (o : Option String) (dflt : String) : String :=
  match o with
  | some s => if s = "" then dflt else s
  | none => dflt

/-- The text read from a node: node.textContent || node.innerText || "". -/
def nodeText (n : MNode) : String := jsOrStr n.textContent (jsOrStr n.innerText "")

/-- Embedding of the per-node body of the mutation callback
(redirect-handler.js lines 122 to 131): element nodes whose text
classifies positive disconnect the observer and send a DetectionEvent
tagged mutationObserver into the dispatcher.  The boolean component of
the state is the connected flag of the observer. -/
def processNode (cfg : Config) (n : MNode) (st : Bool × DState) :
    (Bool × DState) × List Effect :=
  if n.nodeType = 1 then
    if containsSuccessIndicator (some (nodeText n)) then
      ((false, (triggerRedirect cfg "mutationObserver" st.2).1),
       Effect.detection "mutationObserver" ::
         (triggerRedirect cfg "mutationObserver" st.2).2)
    else (st, [])
  else (st, [])

/-- The inner addedNodes.forEach loop: every node of the record is
processed, with no early exit. -/
def processNodes (cfg : Config) : List MNode → (Bool × DState) →
    (Bool × DState) × List Effect
  | [], st => (st, [])
  | n :: ns, st =>
    let r1 := processNode cfg n st
    let r2 := processNodes cfg ns r1.1
    (r2.1, r1.2 ++ r2.2)

/-- The outer mutations.forEach loop over the records of one delivered
batch. -/
def processRecords (cfg : Config) : List (List MNode) → (Bool × DState) →
    (Bool × DState) × List Effect
  | [], st => (st, [])
  | r :: rs, st =>
    let r1 := processNodes cfg r st
    let r2 := processRecords cfg rs r1.1
    (r2.1, r1.2 ++ r2.2)

/-- Delivery of one mutation batch: the browser invokes the callback
only while the observer is connected; a disconnect performed inside the
callback stops later deliveries but never aborts the running one. -/
def deliverBatch (cfg : Config) (batch : List (List MNode)) (st : Bool × DState) :
    (Bool × DState) × List Effect :=
  if st.1 then processRecords cfg batch st else (st, [])

/-- Whether a node triggers the mutation detector. -/
def nodeMatches (n : MNode) : Bool :=
  (n.nodeType == 1) && containsSuccessIndicator (some (nodeText n))

/-- Number of triggering nodes across all records of a batch. -/
def matchCount (batch : List (List MNode)) : Nat :=
  (batch.map (fun r => r.countP nodeMatches)).sum

/-- Number of mutation-tagged DetectionEvents in an effect list. -/
def mutationDetections (es : List Effect) : Nat :=
  es.countP (fun e =>
    match e with
    | Effect.detection t => t == "mutationObserver"
    | _ => false)

/-! Helper lemmas about the substring test and the serialization. -/

/-- jsStartsWith agrees with list-prefix. -/
theorem jsStartsWith_iff (l pat : List Char) :
    jsStartsWith l pat = true ↔ pat <+: l := by
  induction l generalizing pat with
  | nil =>
    cases pat with
    | nil => simp [jsStartsWith]
    | cons p ps => simp [jsStartsWith]
  | cons c cs ih =>
    cases pat with
    | nil => simp [jsStartsWith]
    | cons p ps =>
      have hdef : jsStartsWith (c :: cs) (p :: ps) = ((c == p) && jsStartsWith cs ps) := rfl
      rw [hdef]
      simp only [Bool.and_eq_true, beq_iff_eq, List.cons_prefix_cons, ih]
      exact ⟨fun hx => ⟨hx.1.symm, hx.2⟩, fun hx => ⟨hx.1.symm, hx.2⟩⟩

/-- jsIncludes agrees with list-infix. -/
theorem jsIncludes_iff (pat l : List Char) :
    jsIncludes pat l = true ↔ pat <:+: l := by
  induction l with
  | nil => simp [jsIncludes, List.isEmpty_iff, List.infix_nil]
  | cons c cs ih =>
    simp [jsIncludes, jsStartsWith_iff, ih, List.infix_cons_iff]

/-- The vocabulary scan is true exactly when some indicator occurs. -/
theorem anyIndicator_iff (l : List Char) :
    anyIndicator l = true ↔
      ∃ tok ∈ SUCCESS_INDICATORS, tok.toList <:+: l := by
  simp [anyIndicator, List.any_eq_true, jsIncludes_iff]

/-- An infix of the right part is an infix of an append. -/
theorem infix_extend_left {l l1 l2 : List Char} (h : l <:+: l2) :
    l <:+: l1 ++ l2 := by
  obtain ⟨s, t, rfl⟩ := h
  exact ⟨l1 ++ s, t, by simp⟩

/-- An infix of the left part is an infix of an append. -/
theorem infix_extend_right {l l1 l2 : List Char} (h : l <:+: l1) :
    l <:+: l1 ++ l2 := by
  obtain ⟨s, t, rfl⟩ := h
  exact ⟨s, t ++ l2, by simp⟩

/-- Lowercasing preserves the infix relation. -/
theorem lowerL_infix {l1 l2 : List Char} (h : l1 <:+: l2) :
    lowerL l1 <:+: lowerL l2 := by
  obtain ⟨s, t, rfl⟩ := h
  exact ⟨lowerL s, lowerL t, by simp [lowerL]⟩

/-- JSON escaping distributes over append. -/
theorem escList_append (a b : List Char) :
    escList (a ++ b) = escList a ++ escList b := by
  simp [escList]

/-- Every vocabulary token is escape-free, lowercase and nonempty. -/
theorem vocab_facts : ∀ tok ∈ SUCCESS_INDICATORS,
    escList tok.toList = tok.toList ∧ lowerL tok.toList = tok.toList ∧
      tok.toList ≠ [] := by
  decide

/-- A pair present in a field spine contributes its serialized form as an
infix of the serialized spine. -/
theorem pair_infix_of_hasPair {fs : JSFields} {k : String} {v : JSValue}
    (h : HasPair fs k v) :
    (quoteStr k ++ ':' :: stringify v) <:+: stringifyFields fs := by
  induction h with
  | head k v rest =>
    cases rest with
    | nil => exact List.infix_rfl
    | cons k2 v2 r =>
      simp only [stringifyFields]
      exact infix_extend_right List.infix_rfl
  | tail k2 v2 hrest ih =>
    rename_i rest k v
    cases rest with
    | nil => cases hrest
    | cons k3 v3 r3 =>
      simp only [stringifyFields]
      exact infix_extend_left (List.infix_cons ih)

/-- A vocabulary token occurring inside a key of an object payload occurs
inside the lowercased serialization of that payload. -/
theorem key_token_infix {fs : JSFields} {k : String} {v : JSValue} {tok : String}
    (h : HasPair fs k v) (hmem : tok ∈ SUCCESS_INDICATORS)
    (hinf : tok.toList <:+: k.toList) :
    tok.toList <:+: lowerL (stringify (JSValue.obj fs)) := by
  obtain ⟨hesc, hlow, -⟩ := vocab_facts tok hmem
  obtain ⟨a, b, hab⟩ := hinf
  have h1 : tok.toList <:+: escList k.toList := by
    rw [← hab, escList_append, escList_append, hesc]
    exact ⟨escList a, escList b, by simp⟩
  have h2 : tok.toList <:+: quoteStr k := by
    unfold quoteStr
    exact List.infix_cons (infix_extend_right h1)
  have h3 : tok.toList <:+: quoteStr k ++ ':' :: stringify v :=
    infix_extend_right h2
  have h4 := h3.trans (pair_infix_of_hasPair h)
  have h5 : tok.toList <:+: stringify (JSValue.obj fs) := by
    simp only [stringify]
    exact List.infix_cons (infix_extend_right h4)
  have h6 := lowerL_infix h5
  rwa [hlow] at h6

/-- Successful property lookup implies pair membership. -/
theorem hasPair_of_getFieldF : ∀ (fs : JSFields) (k : String) (v : JSValue),
    getFieldF fs k = some v → HasPair fs k v
  | JSFields.nil, k, v, h => by simp [getFieldF] at h
  | JSFields.cons k2 v2 rest, k, v, h => by
    by_cases hk : k2 = k
    · subst hk
      simp [getFieldF] at h
      subst h
      exact HasPair.head k2 v2 rest
    · simp [getFieldF, hk] at h
      exact HasPair.tail k2 v2 (hasPair_of_getFieldF rest k v h)

/-- JavaScript truthiness of a property read (undefined is falsy). -/
def truthyVal : Option JSValue → Bool
  | some v => truthy v
  | none => false

/-- The structured-shortcut class named by the specification: an object
payload with a truthy success field, or a status field equal to success,
or a type field equal to the completion tag. -/
def claimShortcut (d : JSValue) : Bool :=
  typeofObject d &&
    (truthyVal (getField d "success") || isStrVal "success" (getField d "status") ||
      isStrVal "bookingComplete" (getField d "type"))

/-- A field read that is strictly true is in particular truthy. -/
theorem truthyVal_of_isTrueVal {x : Option JSValue} (h : isTrueVal x = true) :
    truthyVal x = true := by
  cases x with
  | none => simp [isTrueVal] at h
  | some v =>
    cases v with
    | bool b =>
      cases b with
      | true => rfl
      | false => simp [isTrueVal] at h
    | null => simp [isTrueVal] at h
    | num n => simp [isTrueVal] at h
    | str s => simp [isTrueVal] at h
    | obj fs => simp [isTrueVal] at h
    | arr it => simp [isTrueVal] at h

/-- C5: for every structured payload in the specification shortcut class
(object with truthy success field, status equal to success, or type equal
to the completion tag) isSuccessMessage returns true regardless of other
fields; for every other payload it returns the vocabulary scan of the
lowercased serialization. -/
theorem isSuccessMessage_classification (d : JSValue) :
    (claimShortcut d = true → isSuccessMessage d = true) ∧
    (claimShortcut d = false →
      isSuccessMessage d = anyIndicator (lowerL (stringify d))) := by
  constructor
  · intro h
    rw [claimShortcut, Bool.and_eq_true] at h
    obtain ⟨hobj, hdis⟩ := h
    cases d with
    | null => simp [getField, truthyVal, isStrVal] at hdis
    | bool b => simp [typeofObject] at hobj
    | num n => simp [typeofObject] at hobj
    | str s => simp [typeofObject] at hobj
    | arr it => simp [getField, truthyVal, isStrVal] at hdis
    | obj fs =>
      by_cases c1 : isTrueVal (getField (JSValue.obj fs) "success") = true
      · simp [isSuccessMessage, truthy, typeofObject, c1]
      · by_cases c2 : isStrVal "success" (getField (JSValue.obj fs) "status") = true
        · simp [isSuccessMessage, truthy, typeofObject, c1, c2]
        · by_cases c3 : isStrVal "bookingComplete" (getField (JSValue.obj fs) "type") = true
          · simp [isSuccessMessage, truthy, typeofObject, c1, c2, c3]
          · have hts : truthyVal (getField (JSValue.obj fs) "success") = true := by
              simp only [Bool.or_eq_true] at hdis
              rcases hdis with (h1 | h2) | h3
              · exact h1
              · exact absurd h2 c2
              · exact absurd h3 c3
            cases hv : getField (JSValue.obj fs) "success" with
            | none => rw [hv] at hts; simp [truthyVal] at hts
            | some v =>
              have hp : HasPair fs "success" v :=
                hasPair_of_getFieldF fs "success" v (by simpa [getField] using hv)
              have hmem : "success" ∈ SUCCESS_INDICATORS := by decide
              have hkey := key_token_infix hp hmem List.infix_rfl
              have hany : anyIndicator (lowerL (stringify (JSValue.obj fs))) = true :=
                (anyIndicator_iff _).2 ⟨"success", hmem, hkey⟩
              simp [isSuccessMessage, truthy, typeofObject, c1, c2, c3, hany]
  · intro h
    by_cases ht : truthy d = false
    · cases d with
      | null => decide
      | bool b =>
        cases b with
        | false => decide
        | true => simp [truthy] at ht
      | num n =>
        have hn : n = 0 := by simpa [truthy] using ht
        subst hn; decide
      | str s =>
        have hs : s = "" := by simpa [truthy] using ht
        subst hs; decide
      | obj fs => simp [truthy] at ht
      | arr it => simp [truthy] at ht
    · have ht' : truthy d = true := by
        revert ht; cases truthy d <;> simp
      rw [claimShortcut] at h
      by_cases hobj : typeofObject d = true
      · rw [hobj, Bool.true_and] at h
        have hA : truthyVal (getField d "success") = false := by
          revert h; cases truthyVal (getField d "success") <;> simp
        have hB : isStrVal "success" (getField d "status") = false := by
          revert h; cases isStrVal "success" (getField d "status") <;> simp
        have hC : isStrVal "bookingComplete" (getField d "type") = false := by
          revert h; cases isStrVal "bookingComplete" (getField d "type") <;> simp
        have hA' : isTrueVal (getField d "success") = false := by
          by_cases hi : isTrueVal (getField d "success") = true
          · rw [truthyVal_of_isTrueVal hi] at hA; cases hA
          · revert hi; cases isTrueVal (getField d "success") <;> simp
        simp [isSuccessMessage, ht', hA', hB, hC]
      · have hobj' : typeofObject d = false := by
          revert hobj; cases typeofObject d <;> simp
        simp [isSuccessMessage, ht', hobj']

/-- C5 witness: a payload of the shortcut class classifies true, and a
plain string payload classifies through the serialization fallback. -/
theorem isSuccessMessage_classification_witness :
    isSuccessMessage
        (JSValue.obj (JSFields.cons "status" (JSValue.str "success") JSFields.nil)) = true ∧
    isSuccessMessage (JSValue.str "nothing here") =
      anyIndicator (lowerL (stringify (JSValue.str "nothing here"))) :=
  ⟨(isSuccessMessage_classification _).1 (by decide),
   (isSuccessMessage_classification _).2 (by decide)⟩

/-- C10: any object payload with a property whose key contains a
vocabulary token classifies as success, because JSON serialization puts
property names into the scanned text. -/
theorem serialization_key_success (fs : JSFields) (k : String) (v : JSValue)
    (tok : String) (hp : HasPair fs k v) (hmem : tok ∈ SUCCESS_INDICATORS)
    (hinf : tok.toList <:+: k.toList) :
    isSuccessMessage (JSValue.obj fs) = true := by
  by_cases c1 : isTrueVal (getField (JSValue.obj fs) "success") = true
  · simp [isSuccessMessage, truthy, typeofObject, c1]
  · by_cases c2 : isStrVal "success" (getField (JSValue.obj fs) "status") = true
    · simp [isSuccessMessage, truthy, typeofObject, c1, c2]
    · by_cases c3 : isStrVal "bookingComplete" (getField (JSValue.obj fs) "type") = true
      · simp [isSuccessMessage, truthy, typeofObject, c1, c2, c3]
      · have hkey := key_token_infix hp hmem hinf
        have hany : anyIndicator (lowerL (stringify (JSValue.obj fs))) = true :=
          (anyIndicator_iff _).2 ⟨tok, hmem, hkey⟩
        simp [isSuccessMessage, truthy, typeofObject, c1, c2, c3, hany]

/-- C10 witness: the failure payload with the single field success: false
classifies as success. -/
theorem serialization_key_success_witness :
    isSuccessMessage
      (JSValue.obj (JSFields.cons "success" (JSValue.bool false) JSFields.nil)) = true :=
  serialization_key_success _ "success" (JSValue.bool false) "success"
    (HasPair.head "success" (JSValue.bool false) JSFields.nil)
    (by decide) (by decide)

/-- C6: the text and URL classifiers return true exactly when some
vocabulary token occurs inside the lowercased input, and undefined input
yields false. -/
theorem classifier_substring_iff (text : String) :
    (containsSuccessIndicator (some text) = true ↔
      ∃ tok ∈ SUCCESS_INDICATORS, tok.toList <:+: lowerL text.toList) ∧
    (isSuccessUrl (some text) = true ↔
      ∃ tok ∈ SUCCESS_INDICATORS, tok.toList <:+: lowerL text.toList) ∧
    containsSuccessIndicator none = false ∧ isSuccessUrl none = false := by
  have h : (if text = "" then false else anyIndicator (lowerL text.toList)) = true ↔
      ∃ tok ∈ SUCCESS_INDICATORS, tok.toList <:+: lowerL text.toList := by
    by_cases he : text = ""
    · subst he
      refine iff_of_false (by simp) ?_
      rintro ⟨tok, hmem, hinf⟩
      have hne := (vocab_facts tok hmem).2.2
      have hz : lowerL "".toList = ([] : List Char) := rfl
      rw [hz, List.infix_nil] at hinf
      exact hne hinf
    · rw [if_neg he]
      exact anyIndicator_iff _
  exact ⟨by simpa [containsSuccessIndicator] using h,
         by simpa [isSuccessUrl] using h, rfl, rfl⟩

/-! Dispatcher lemmas and theorems. -/

/-- Attempt counter after one dispatcher call: incremented exactly when
the guard admits the call. -/
theorem triggerRedirect_attempts (cfg : Config) (m : String) (s : DState) :
    (triggerRedirect cfg m s).1.redirectAttempts =
      if s.redirectAttempts < cfg.maxRedirectAttempts then s.redirectAttempts + 1
      else s.redirectAttempts := by
  unfold triggerRedirect
  by_cases h : s.redirectAttempts ≥ cfg.maxRedirectAttempts
  · have hlt : ¬ s.redirectAttempts < cfg.maxRedirectAttempts := by omega
    rw [if_pos h, if_neg hlt]
  · have hlt : s.redirectAttempts < cfg.maxRedirectAttempts := by omega
    rw [if_neg h, if_pos hlt]
    by_cases ho : cfg.overlayPresent <;> simp [ho]

/-- A navigation timer firing never changes the attempt counter. -/
theorem fireNav_attempts (cfg : Config) (s : DState) :
    (fireNav cfg s).1.redirectAttempts = s.redirectAttempts := by
  unfold fireNav
  by_cases h : s.pendingNavs = 0 <;> simp [h]

/-- The attempt counter equals its initial value plus the number of
accepted dispatcher calls. -/
theorem run_attempts (cfg : Config) (ops : List Op) : ∀ s : DState,
    (run cfg ops s).1.redirectAttempts = s.redirectAttempts + acceptedFrom cfg ops s := by
  induction ops with
  | nil => intro s; simp [run, acceptedFrom]
  | cons op rest ih =>
    intro s
    cases op with
    | detect m =>
      show (run cfg rest (triggerRedirect cfg m s).1).1.redirectAttempts =
        s.redirectAttempts +
          ((if s.redirectAttempts < cfg.maxRedirectAttempts then 1 else 0) +
            acceptedFrom cfg rest (triggerRedirect cfg m s).1)
      rw [ih (triggerRedirect cfg m s).1, triggerRedirect_attempts]
      by_cases hlt : s.redirectAttempts < cfg.maxRedirectAttempts <;>
        (simp [hlt]; try omega)
    | fire =>
      show (run cfg rest (fireNav cfg s).1).1.redirectAttempts =
        s.redirectAttempts + acceptedFrom cfg rest (fireNav cfg s).1
      rw [ih (fireNav cfg s).1, fireNav_attempts]

/-- The attempt ceiling is preserved by every operation sequence. -/
theorem run_attempts_le (cfg : Config) (ops : List Op) : ∀ s : DState,
    s.redirectAttempts ≤ cfg.maxRedirectAttempts →
    (run cfg ops s).1.redirectAttempts ≤ cfg.maxRedirectAttempts := by
  induction ops with
  | nil => intro s h; simpa [run] using h
  | cons op rest ih =>
    intro s h
    cases op with
    | detect m =>
      show (run cfg rest (triggerRedirect cfg m s).1).1.redirectAttempts ≤ _
      apply ih
      rw [triggerRedirect_attempts]
      by_cases hlt : s.redirectAttempts < cfg.maxRedirectAttempts <;>
        simp [hlt] <;> omega
    | fire =>
      show (run cfg rest (fireNav cfg s).1).1.redirectAttempts ≤ _
      apply ih
      rw [fireNav_attempts]
      exact h

/-- C2: after a call history with maxRedirectAttempts accepted dispatcher
calls, the next call returns the state unchanged and produces no effect
at all: no attempt-count change, no analytics, no overlay transition, no
scheduled navigation. -/
theorem handleDetection_ceiling_noop (cfg : Config) (ops : List Op) (m : String)
    (h : acceptedFrom cfg ops initState = cfg.maxRedirectAttempts) :
    triggerRedirect cfg m (run cfg ops initState).1 = ((run cfg ops initState).1, []) := by
  have ha := run_attempts cfg ops initState
  rw [h] at ha
  have hge : (run cfg ops initState).1.redirectAttempts ≥ cfg.maxRedirectAttempts := by
    rw [ha]; simp [initState]
  unfold triggerRedirect
  rw [if_pos hge]

/-- A history of three accepted detections under the source
configuration. -/
def opsThree : List Op :=
  [Op.detect "postMessage", Op.detect "customEvent", Op.detect "manual"]

/-- C2 witness at the source configuration. -/
theorem handleDetection_ceiling_noop_witness :
    triggerRedirect CONFIG "postMessage" (run CONFIG opsThree initState).1 =
      ((run CONFIG opsThree initState).1, []) :=
  handleDetection_ceiling_noop CONFIG opsThree "postMessage" (by decide)

/-- C3: starting from attemptCount zero, every operation sequence keeps
the counter at or below the ceiling, and every accepted DetectionEvent
increments it by exactly one whether or not navigation happens later. -/
theorem attemptCount_invariant (cfg : Config) (ops : List Op) :
    (run cfg ops initState).1.redirectAttempts ≤ cfg.maxRedirectAttempts ∧
    ∀ (m : String) (s : DState), s.redirectAttempts < cfg.maxRedirectAttempts →
      (triggerRedirect cfg m s).1.redirectAttempts = s.redirectAttempts + 1 := by
  constructor
  · exact run_attempts_le cfg ops initState (by simp [initState])
  · intro m s hlt
    rw [triggerRedirect_attempts, if_pos hlt]

/-- C3 witness at the source configuration. -/
theorem attemptCount_invariant_witness :
    (run CONFIG [Op.detect "postMessage"] initState).1.redirectAttempts ≤
        CONFIG.maxRedirectAttempts ∧
    (triggerRedirect CONFIG "postMessage" initState).1.redirectAttempts =
        initState.redirectAttempts + 1 :=
  ⟨(attemptCount_invariant CONFIG [Op.detect "postMessage"]).1,
   (attemptCount_invariant CONFIG []).2 "postMessage" initState (by decide)⟩

/-- A burst of two accepted detections whose two scheduled navigation
timers both fire. -/
def burstOps : List Op :=
  [Op.detect "postMessage", Op.detect "mutationObserver", Op.fire, Op.fire]

/-- C1: under the source configuration, a burst of two accepted
detections performs the navigation twice, because the timer callback
assigns the location unconditionally and no hasNavigated flag exists. -/
theorem burst_double_navigation :
    (run CONFIG burstOps initState).1.navigations =
      [CONFIG.redirectUrl, CONFIG.redirectUrl] ∧
    (run CONFIG burstOps initState).1.navigations.length = 2 := by
  constructor <;> decide

/-- C4 counterexample: with the booking iframe absent, init starts no
detector at all; in particular the message listener is not started. -/
theorem init_missing_iframe_counterexample :
    (init { iframePresent := false, overlayPresent := true }).started = [] ∧
    "setupPostMessageListener" ∉
      (init { iframePresent := false, overlayPresent := true }).started := by
  constructor
  · rfl
  · decide

/-- C4 amended: init is total (never throws); with the iframe absent it
logs the error and returns early without starting any detector, and with
the iframe present it starts all five detectors; the overlay element
plays no role in either case. -/
theorem init_missing_iframe_amended (overlay : Bool) :
    init { iframePresent := false, overlayPresent := overlay } =
      { started := [], errorLogged := true } ∧
    init { iframePresent := true, overlayPresent := overlay } =
      { started := ["setupPostMessageListener", "setupUrlMonitoring",
                    "setupMutationObserver", "setupNavigationWatcher",
                    "setupCustomEventListener"],
        errorLogged := false } :=
  ⟨rfl, rfl⟩

/-- C7: a message whose origin does not contain the trusted substring
leaves the dispatcher state unchanged, produces no DetectionEvent and no
other effect, and the outcome does not depend on the payload. -/
theorem onMessage_untrusted_origin_noop (cfg : Config) (origin : String)
    (d1 d2 : JSValue) (s : DState)
    (h : jsIncludes trustedOriginSubstring.toList origin.toList = false) :
    onMessage cfg origin d1 s = (s, []) ∧
    onMessage cfg origin d1 s = onMessage cfg origin d2 s := by
  have hd : (!(jsIncludes trustedOriginSubstring.toList origin.toList)) = true := by
    rw [h]; rfl
  have h1 : onMessage cfg origin d1 s = (s, []) := by
    unfold onMessage; rw [if_pos hd]
  have h2 : onMessage cfg origin d2 s = (s, []) := by
    unfold onMessage; rw [if_pos hd]
  exact ⟨h1, h1.trans h2.symm⟩

/-- A payload that would classify as success if the origin were trusted. -/
def evilPayload : JSValue :=
  JSValue.obj (JSFields.cons "success" (JSValue.bool true) JSFields.nil)

/-- C7 witness: an untrusted origin with a success payload is ignored. -/
theorem onMessage_untrusted_origin_noop_witness :
    onMessage CONFIG "https://evil.example" evilPayload initState = (initState, []) ∧
    onMessage CONFIG "https://evil.example" evilPayload initState =
      onMessage CONFIG "https://evil.example" (JSValue.str "thank you") initState :=
  onMessage_untrusted_origin_noop CONFIG "https://evil.example" evilPayload
    (JSValue.str "thank you") initState (by decide)

/-! Location poller theorems. -/

/-- A tick whose cross-origin read throws is swallowed and has no effect. -/
theorem pollTick_none (cfg : Config) (p : PollState) (s : DState) :
    pollTick cfg none p s = (p, s, []) := by
  unfold pollTick
  by_cases ha : p.active = false <;> simp [ha]

/-- One-step unfolding of runPoll. -/
theorem runPoll_cons (cfg : Config) (r : Option String) (rest : List (Option String))
    (p : PollState) (s : DState) :
    runPoll cfg (r :: rest) p s =
      ((runPoll cfg rest (pollTick cfg r p s).1 (pollTick cfg r p s).2.1).1,
       (runPoll cfg rest (pollTick cfg r p s).1 (pollTick cfg r p s).2.1).2.1,
       (pollTick cfg r p s).2.2 ++
         (runPoll cfg rest (pollTick cfg r p s).1 (pollTick cfg r p s).2.1).2.2) := rfl

/-- A lifetime of throwing ticks leaves every state unchanged and emits
nothing. -/
theorem runPoll_none (cfg : Config) :
    ∀ (reads : List (Option String)) (p : PollState) (s : DState),
    (∀ r ∈ reads, r = none) → runPoll cfg reads p s = (p, s, []) := by
  intro reads
  induction reads with
  | nil => intro p s _; rfl
  | cons r rest ih =>
    intro p s h
    have hr : r = none := h r (by simp)
    subst hr
    have hrest : ∀ x ∈ rest, x = none := fun x hx => h x (by simp [hx])
    rw [runPoll_cons, pollTick_none cfg p s]
    show ((runPoll cfg rest p s).1, (runPoll cfg rest p s).2.1,
      [] ++ (runPoll cfg rest p s).2.2) = (p, s, [])
    rw [ih p s hrest]
    rfl

/-- C9: throwing reads are swallowed for the whole page lifetime with no
DetectionEvent; a successful read emits a locationPoll DetectionEvent
(tag urlMonitoring in the source) and permanently clears the interval
exactly when the address changed and classifies as a success URL; once
inactive, the poller never acts again. -/
theorem urlMonitoring_spec (cfg : Config) (reads : List (Option String))
    (url : String) (p : PollState) (s : DState) :
    ((∀ r ∈ reads, r = none) → runPoll cfg reads p s = (p, s, [])) ∧
    (p.active = true → url ≠ p.lastUrl → isSuccessUrl (some url) = true →
      pollTick cfg (some url) p s =
        ({ lastUrl := url, active := false },
         (triggerRedirect cfg "urlMonitoring" s).1,
         Effect.detection "urlMonitoring" ::
           (triggerRedirect cfg "urlMonitoring" s).2)) ∧
    (p.active = true → (url = p.lastUrl ∨ isSuccessUrl (some url) = false) →
      (pollTick cfg (some url) p s).1.active = true ∧
      (pollTick cfg (some url) p s).2.1 = s ∧
      (pollTick cfg (some url) p s).2.2 = []) ∧
    (p.active = false → ∀ r : Option String, pollTick cfg r p s = (p, s, [])) := by
  refine ⟨runPoll_none cfg reads p s, ?_, ?_, ?_⟩
  · intro ha hne hsu
    simp [pollTick, ha, hne, hsu]
  · intro ha hor
    rcases hor with heq | hfalse
    · simp [pollTick, ha, heq]
    · by_cases hne : url = p.lastUrl
      · simp [pollTick, ha, hne]
      · simp [pollTick, ha, hne, hfalse]
  · intro hina r
    unfold pollTick
    rw [if_pos hina]

/-- C9 witness: two throwing ticks do nothing; a changed success address
fires and stops; an unmatched address does nothing; an inactive poller
ignores every read. -/
theorem urlMonitoring_spec_witness :
    runPoll CONFIG [none, none] pollInit initState = (pollInit, initState, []) ∧
    pollTick CONFIG (some "https://x.com/thank-you") pollInit initState =
      ({ lastUrl := "https://x.com/thank-you", active := false },
       (triggerRedirect CONFIG "urlMonitoring" initState).1,
       Effect.detection "urlMonitoring" ::
         (triggerRedirect CONFIG "urlMonitoring" initState).2) ∧
    ((pollTick CONFIG (some "https://x.com/waiting") pollInit initState).1.active = true ∧
     (pollTick CONFIG (some "https://x.com/waiting") pollInit initState).2.1 = initState ∧
     (pollTick CONFIG (some "https://x.com/waiting") pollInit initState).2.2 = []) ∧
    pollTick CONFIG (some "https://x.com/thank-you") { lastUrl := "", active := false }
        initState = ({ lastUrl := "", active := false }, initState, []) :=
  ⟨(urlMonitoring_spec CONFIG [none, none] "x" pollInit initState).1 (by decide),
   (urlMonitoring_spec CONFIG [] "https://x.com/thank-you" pollInit initState).2.1
     rfl (by decide) (by decide),
   (urlMonitoring_spec CONFIG [] "https://x.com/waiting" pollInit initState).2.2.1
     rfl (Or.inr (by decide)),
   (urlMonitoring_spec CONFIG [] "https://x.com/thank-you"
     { lastUrl := "", active := false } initState).2.2.2 rfl
     (some "https://x.com/thank-you")⟩

/-! Mutation watcher theorems. -/

/-- triggerRedirect itself never emits a DetectionEvent effect. -/
theorem triggerRedirect_no_detection (cfg : Config) (m : String) (s : DState) :
    mutationDetections (triggerRedirect cfg m s).2 = 0 := by
  unfold triggerRedirect mutationDetections
  by_cases h : s.redirectAttempts ≥ cfg.maxRedirectAttempts
  · rw [if_pos h]; rfl
  · rw [if_neg h]
    by_cases ho : cfg.overlayPresent <;>
      simp [ho, List.countP_cons, List.countP_nil]

/-- The mutation detection count is additive over appended effect lists. -/
theorem mutationDetections_append (a b : List Effect) :
    mutationDetections (a ++ b) = mutationDetections a + mutationDetections b := by
  unfold mutationDetections
  rw [List.countP_append]

/-- A mutation DetectionEvent at the front adds one to the count. -/
theorem mutationDetections_cons_det (l : List Effect) :
    mutationDetections (Effect.detection "mutationObserver" :: l) =
      mutationDetections l + 1 := by
  unfold mutationDetections
  rw [List.countP_cons]
  simp

/-- One-step unfolding of processNodes. -/
theorem processNodes_cons (cfg : Config) (n : MNode) (ns : List MNode)
    (st : Bool × DState) :
    processNodes cfg (n :: ns) st =
      ((processNodes cfg ns (processNode cfg n st).1).1,
       (processNode cfg n st).2 ++ (processNodes cfg ns (processNode cfg n st).1).2) := rfl

/-- One-step unfolding of processRecords. -/
theorem processRecords_cons (cfg : Config) (r : List MNode) (rs : List (List MNode))
    (st : Bool × DState) :
    processRecords cfg (r :: rs) st =
      ((processRecords cfg rs (processNodes cfg r st).1).1,
       (processNodes cfg r st).2 ++
         (processRecords cfg rs (processNodes cfg r st).1).2) := rfl

/-- Within one record, every matching added node emits one DetectionEvent
(iteration does not stop at the first match), and the observer ends the
record connected exactly when it started connected and no node matched. -/
theorem processNodes_spec (cfg : Config) : ∀ (ns : List MNode) (c : Bool) (s : DState),
    mutationDetections (processNodes cfg ns (c, s)).2 = ns.countP nodeMatches ∧
    ((processNodes cfg ns (c, s)).1.1 = true ↔
      (c = true ∧ ns.countP nodeMatches = 0))
  | [], c, s => by
    constructor
    · rfl
    · simp [processNodes, List.countP_nil]
  | n :: ns, c, s => by
    by_cases hm : nodeMatches n = true
    · have hx := hm
      unfold nodeMatches at hx
      rw [Bool.and_eq_true, beq_iff_eq] at hx
      have h1 : n.nodeType = 1 := hx.1
      have h2 : containsSuccessIndicator (some (nodeText n)) = true := hx.2
      have hpn : processNode cfg n (c, s) =
          ((false, (triggerRedirect cfg "mutationObserver" s).1),
           Effect.detection "mutationObserver" ::
             (triggerRedirect cfg "mutationObserver" s).2) := by
        unfold processNode
        rw [if_pos h1, if_pos h2]
      have hrec := processNodes_spec cfg ns false (triggerRedirect cfg "mutationObserver" s).1
      constructor
      · rw [processNodes_cons, hpn]
        show mutationDetections ((Effect.detection "mutationObserver" ::
            (triggerRedirect cfg "mutationObserver" s).2) ++
            (processNodes cfg ns
              (false, (triggerRedirect cfg "mutationObserver" s).1)).2) = _
        rw [mutationDetections_append, mutationDetections_cons_det,
          triggerRedirect_no_detection, hrec.1, List.countP_cons]
        simp [hm]
        omega
      · rw [processNodes_cons, hpn]
        show (processNodes cfg ns
            (false, (triggerRedirect cfg "mutationObserver" s).1)).1.1 = true ↔ _
        rw [hrec.2, List.countP_cons]
        simp [hm]
    · have hpn : processNode cfg n (c, s) = ((c, s), []) := by
        unfold processNode
        by_cases h1 : n.nodeType = 1
        · by_cases h2 : containsSuccessIndicator (some (nodeText n)) = true
          · exfalso
            apply hm
            unfold nodeMatches
            simp [h1, h2]
          · rw [if_pos h1, if_neg h2]
        · rw [if_neg h1]
      have hrec := processNodes_spec cfg ns c s
      have hm0 : nodeMatches n = false := by
        revert hm; cases nodeMatches n <;> simp
      constructor
      · rw [processNodes_cons, hpn]
        show mutationDetections ([] ++ (processNodes cfg ns (c, s)).2) = _
        rw [List.nil_append, hrec.1, List.countP_cons, hm0]
        simp
      · rw [processNodes_cons, hpn]
        show (processNodes cfg ns (c, s)).1.1 = true ↔ _
        rw [hrec.2, List.countP_cons, hm0]
        simp

/-- matchCount over a cons of records. -/
theorem matchCount_cons (r : List MNode) (rs : List (List MNode)) :
    matchCount (r :: rs) = r.countP nodeMatches + matchCount rs := by
  simp [matchCount]

/-- Batch-level version of processNodes_spec. -/
theorem processRecords_spec (cfg : Config) :
    ∀ (rs : List (List MNode)) (c : Bool) (s : DState),
    mutationDetections (processRecords cfg rs (c, s)).2 = matchCount rs ∧
    ((processRecords cfg rs (c, s)).1.1 = true ↔ (c = true ∧ matchCount rs = 0))
  | [], c, s => by
    constructor
    · rfl
    · simp [processRecords, matchCount]
  | r :: rs, c, s => by
    have hr := processNodes_spec cfg r c s
    have hrec := processRecords_spec cfg rs (processNodes cfg r (c, s)).1.1
      (processNodes cfg r (c, s)).1.2
    have h2 : mutationDetections
        (processRecords cfg rs (processNodes cfg r (c, s)).1).2 = matchCount rs := hrec.1
    have h3 : (processRecords cfg rs (processNodes cfg r (c, s)).1).1.1 = true ↔
        ((processNodes cfg r (c, s)).1.1 = true ∧ matchCount rs = 0) := hrec.2
    constructor
    · rw [processRecords_cons, matchCount_cons]
      show mutationDetections ((processNodes cfg r (c, s)).2 ++
        (processRecords cfg rs (processNodes cfg r (c, s)).1).2) = _
      rw [mutationDetections_append, hr.1, h2]
    · rw [processRecords_cons, matchCount_cons]
      show (processRecords cfg rs (processNodes cfg r (c, s)).1).1.1 = true ↔ _
      rw [h3, hr.2]
      constructor
      · rintro ⟨⟨hc, h0⟩, h0x⟩
        exact ⟨hc, by omega⟩
      · rintro ⟨hc, h0⟩
        refine ⟨⟨hc, ?_⟩, ?_⟩ <;> omega

/-- C8 amended: a disconnected observer receives no further batch, so no
later mutation DetectionEvent exists; a delivered batch emits one
mutation DetectionEvent per matching added element node (iteration
continues past the disconnect), and the observer stays connected exactly
when the batch contained no match. -/
theorem mutation_batch_amended (cfg : Config) (batch : List (List MNode)) (s : DState) :
    deliverBatch cfg batch (false, s) = ((false, s), []) ∧
    mutationDetections (deliverBatch cfg batch (true, s)).2 = matchCount batch ∧
    ((deliverBatch cfg batch (true, s)).1.1 = true ↔ matchCount batch = 0) := by
  refine ⟨?_, ?_, ?_⟩
  · unfold deliverBatch
    simp
  · unfold deliverBatch
    show mutationDetections (processRecords cfg batch (true, s)).2 = _
    exact (processRecords_spec cfg batch true s).1
  · unfold deliverBatch
    show (processRecords cfg batch (true, s)).1.1 = true ↔ _
    rw [(processRecords_spec cfg batch true s).2]
    simp

/-- An added element node whose text contains a success indicator. -/
def thankNode : MNode :=
  { nodeType := 1, textContent := some "Thank you for booking", innerText := none }

/-- C8 counterexample: a single delivered batch with two matching added
nodes dispatches two mutation-tagged DetectionEvents, not exactly one. -/
theorem mutation_batch_counterexample :
    mutationDetections
        (deliverBatch CONFIG [[thankNode, thankNode]] (true, initState)).2 = 2 ∧
    mutationDetections
        (deliverBatch CONFIG [[thankNode, thankNode]] (true, initState)).2 ≠ 1 := by
  constructor <;> decide
